import Mathlib

/-!
Verification of the TITAN-API workflow core: the execution-status
aggregation state machine (`titan/routes/v2/workflow.py` and
`titan/routes/v3/workflow.py`), the workflow graph compiler
(`parse_to_list` in `titan/models/workflow.py`) and the RDF task-node
naming scheme (`parse_to_rdf` in `titan/models/workflow.py`).
Python dictionaries are embedded as insertion-ordered association
lists; fallible lookups return `Option`.
-/

namespace Titan

/-- The `State` enumeration of `titan/models/workflow.py`. -/
inductive State where
  | STATUS_UNKNOWN
  | STATUS_REVOKED
  | STATUS_PENDING
  | STATUS_RUNNING
  | STATUS_FAILED
  | STATUS_DONE
deriving DecidableEq, Repr

/-- String value of each `State` enumeration member. -/
def State.val : State → String
  | .STATUS_UNKNOWN => "UNKNOWN"
  | .STATUS_REVOKED => "REVOKED"
  | .STATUS_PENDING => "PENDING"
  | .STATUS_RUNNING => "RUNNING"
  | .STATUS_FAILED => "FAILED"
  | .STATUS_DONE => "DONE"

/-- The list comprehension inside `_check`: `[s in stats for s in tasks_statuses_only]`
(membership of each reported status in the candidate list `stats`). -/
def memberFlags (stats : List String) (tasksStatuses : List String) : List Bool :=
  tasksStatuses.map (fun s => stats.contains s)

/-- `_check(all, stats)` of the v3 status routes. -/
def checkAll (stats tasksStatuses : List String) : Bool :=
  (memberFlags stats tasksStatuses).all (fun b => b)

/-- `_check(any, stats)` of the v3 status routes. -/
def checkAny (stats tasksStatuses : List String) : Bool :=
  (memberFlags stats tasksStatuses).any (fun b => b)

/-- The v3 status-aggregation chain (`titan/routes/v3/workflow.py`,
identical in the `status` and `fstatus` routes): the if/elif cascade over
the upper-cased task statuses, guarded first by `response.get("is_revoked")`. -/
def statusV3 (tasksStatuses : List String) (isRevoked : Bool) : State :=
  if isRevoked then State.STATUS_REVOKED
  else if checkAll ["DONE"] tasksStatuses then State.STATUS_DONE
  else if checkAny ["FAILED"] tasksStatuses then State.STATUS_FAILED
  else if checkAll ["PENDING"] tasksStatuses then State.STATUS_PENDING
  else if checkAny ["PENDING"] tasksStatuses && !(checkAny ["FAILED"] tasksStatuses) then
    State.STATUS_PENDING
  else if checkAny ["RUNNING"] tasksStatuses && !(checkAny ["FAILED"] tasksStatuses) then
    State.STATUS_RUNNING
  else State.STATUS_UNKNOWN

/-- The v2 status-aggregation chain (`titan/routes/v2/workflow.py`, `status`
route): a different cascade, and no consultation of any revoked flag. -/
def statusV2 (tasksStatuses : List String) : State :=
  if checkAll ["DONE"] tasksStatuses then State.STATUS_DONE
  else if checkAll ["PENDING"] tasksStatuses then State.STATUS_PENDING
  else if checkAll ["PENDING", "RUNNING"] tasksStatuses then State.STATUS_RUNNING
  else if checkAny ["FAILED"] tasksStatuses then State.STATUS_FAILED
  else State.STATUS_UNKNOWN

/-- One task entry of the engine's status report: only the `status` field
matters to aggregation; `none` models a missing `status` key. -/
structure TaskReport where
  status : Option String
deriving DecidableEq, Repr

/-- The engine's status report: a `tasks` list plus the optional top-level
`is_revoked` flag (Python truthiness collapsed to `Bool`). -/
structure StatusReport where
  tasks : List TaskReport
  is_revoked : Bool
deriving DecidableEq, Repr

/-- The string values of the `State` enumeration, against which
`Task(**task)` (pydantic) validates a reported status. -/
def stateValues : List String :=
  ["UNKNOWN", "REVOKED", "PENDING", "RUNNING", "FAILED", "DONE"]

/-- Character-wise ASCII case conversion, embedding Python's `str.upper`. -/
def pyUpper (s : String) : String := ⟨s.data.map Char.toUpper⟩

/-- Character-wise ASCII case conversion, embedding Python's `str.lower`. -/
def pyLower (s : String) : String := ⟨s.data.map Char.toLower⟩

/-- One iteration of the v3 task-reading loop. `Task(**task)` validates a
present status against the `State` enumeration and raises on an
unrecognized value (a missing status passes, the field defaulting to null);
then `task.get("status").upper()` raises `AttributeError` on a missing
status. `none` models a raised exception. -/
def readTaskStatus (t : TaskReport) : Option String :=
  match t.status with
  | none => none
  | some s => if stateValues.contains s then some (pyUpper s) else none

/-- The whole v3 task-reading loop: the loop stops at the first raising
entry, so the collected status list exists only if every entry reads. -/
def readStatuses (ts : List TaskReport) : Option (List String) :=
  match ts with
  | [] => some []
  | t :: rest =>
    match readTaskStatus t, readStatuses rest with
    | some s, some ss => some (s :: ss)
    | _, _ => none

/-- The v3 per-workflow status derivation, `try` block included: any
exception raised while reading the task list is caught by the surrounding
handler and the preassigned default `STATUS_UNKNOWN` is kept. -/
def v3WorkflowStatus (r : StatusReport) : State :=
  match readStatuses r.tasks with
  | none => State.STATUS_UNKNOWN
  | some ss => statusV3 ss r.is_revoked

/-- One iteration of the v2 task-reading loop: no pydantic validation,
just `task.get("status").upper()`, which raises on a missing status. -/
def readTaskStatusV2 (t : TaskReport) : Option String :=
  t.status.map pyUpper

/-- The whole v2 task-reading loop. -/
def readStatusesV2 (ts : List TaskReport) : Option (List String) :=
  match ts with
  | [] => some []
  | t :: rest =>
    match readTaskStatusV2 t, readStatusesV2 rest with
    | some s, some ss => some (s :: ss)
    | _, _ => none

/-- The v2 per-workflow status derivation. The v2 route has no handler
around the loop, so a raising entry propagates (`none`); on a well-formed
report the state is derived by `statusV2`, which never consults
`is_revoked`. -/
def v2WorkflowStatus (r : StatusReport) : Option State :=
  (readStatusesV2 r.tasks).map statusV2

/-! ## Python dictionaries as insertion-ordered association lists -/

/-- Python dictionary read `d[k]` / `d.get(k)`: first (and, for a genuine
dict, only) entry with the given key. -/
def dget {κ α : Type} [DecidableEq κ] (l : List (κ × α)) (k : κ) : Option α :=
  match l with
  | [] => none
  | (k', v) :: t => if k' = k then some v else dget t k

/-- Python dictionary write `d[k] = v`: replace the value at an existing
key in place, else append the new entry at the end. -/
def dput {κ α : Type} [DecidableEq κ] (l : List (κ × α)) (k : κ) (v : α) : List (κ × α) :=
  match l with
  | [] => [(k, v)]
  | (k', v') :: t => if k' = k then (k, v) :: t else (k', v') :: dput t k v

/-- Keys of an association list, in order. -/
def dkeys {κ α : Type} (l : List (κ × α)) : List κ :=
  l.map Prod.fst

/-! ## The workflow document (Graph Model) -/

/-- A best-effort-typed parameter or primitive value, as produced by the
Task Compiler's coercion step. Python floats are represented exactly as
rationals. -/
inductive PyValue where
  | VInt : Int → PyValue
  | VFloat : Rat → PyValue
  | VBool : Bool → PyValue
  | VStr : String → PyValue
deriving DecidableEq, Repr

/-- An input or output connector: `properties.name` and `definition.uri`. -/
structure ConnectorDoc where
  name : String
  uri : String
deriving DecidableEq, Repr

/-- An operator parameter: `properties.name` and `properties.value`. -/
structure ParamDoc where
  name : String
  value : PyValue
deriving DecidableEq, Repr

/-- One operator node of the workflow document: `properties.name`,
`properties.module`, the `properties.inputs` / `properties.outputs`
connector dictionaries, the `parameters` dictionary and `definition.uri`. -/
structure OperatorDoc where
  name : String
  module : String
  inputs : List (String × ConnectorDoc)
  outputs : List (String × ConnectorDoc)
  parameters : List (String × ParamDoc)
  uri : String
deriving DecidableEq, Repr

/-- One link of the workflow document: its four endpoint fields. -/
structure LinkDoc where
  fromOperator : String
  fromConnector : String
  toOperator : String
  toConnector : String
deriving DecidableEq, Repr

/-- The workflow document: the `operators` and `links` dictionaries. -/
structure WorkflowDoc where
  operators : List (String × OperatorDoc)
  links : List (String × LinkDoc)
deriving DecidableEq, Repr

/-! ## Parameter value coercion

`parse_to_list` coerces each raw parameter value with `strconv.convert`,
keeping the raw value on failure. The strconv package is an external
dependency whose sources are not part of this repository. -/

/-- Numeric value of a digit run. -/
def digitsToNat (l : List Char) : Nat :=
  l.foldl (fun n c => n * 10 + (c.toNat - 48)) 0

/-- Parse a non-empty run of decimal digits. -/
def parseDigits (l : List Char) : Option Nat :=
  if !l.isEmpty && l.all Char.isDigit then some (digitsToNat l) else none

/-- Parse an optionally signed decimal integer. -/
def parseIntS (s : String) : Option Int :=
  match s.data with
  | '-' :: rest => (parseDigits rest).map (fun n => -(n : Int))
  | '+' :: rest => (parseDigits rest).map (fun n => (n : Int))
  | l => (parseDigits l).map (fun n => (n : Int))

/-- Parse the unsigned part of a decimal fraction: digits, one point,
digits, at least one digit overall. -/
def parseFracCore (l : List Char) : Option Rat :=
  let intPart := l.takeWhile (fun c => c != '.')
  match l.dropWhile (fun c => c != '.') with
  | '.' :: fracPart =>
    if intPart.all Char.isDigit && fracPart.all Char.isDigit &&
        !fracPart.contains '.' && !(intPart.isEmpty && fracPart.isEmpty) then
      some ((digitsToNat intPart : Rat) +
        (digitsToNat fracPart : Rat) / ((10 : Rat) ^ fracPart.length))
    else none
  | _ => none

/-- Parse an optionally signed decimal fraction. -/
def parseFloatS (s : String) : Option Rat :=
  match s.data with
  | '-' :: rest => (parseFracCore rest).map (fun q => -q)
  | '+' :: rest => parseFracCore rest
  | l => parseFracCore l

/-- Parse a boolean word, case-insensitively. -/
def parseBoolS (s : String) : Option Bool :=
  let l := pyLower s
  if l = "true" || l = "yes" then some true
  else if l = "false" || l = "no" then some false
  else none

/-- Modelled from the spec: `strconv.convert`, the best-effort type
coercion of the external strconv package, of which the repository only
holds the call site in `parse_to_list`. Per the spec it recognizes
integers, floats and booleans in string values and falls back to the
unchanged raw value; already-primitive values come back unchanged. -/
def convert (v : PyValue) : PyValue :=
  match v with
  | .VStr s =>
    match parseIntS s with
    | some n => .VInt n
    | none =>
      match parseFloatS s with
      | some q => .VFloat q
      | none =>
        match parseBoolS s with
        | some b => .VBool b
        | none => .VStr s
  | v => v

/-! ## Link Resolver and Task Compiler (`parse_to_list`) -/

/-- The Link Resolver: iterate `workflow["links"]` in insertion order and
index `(toOperator, toConnector) → (fromOperator, fromConnector)`,
unconditionally overwriting an earlier entry for the same destination
(the nested `defaultdict` write `links[to_op_idx][to_con_idx] = ...`). -/
def linkIndex (links : List (String × LinkDoc)) : List ((String × String) × (String × String)) :=
  links.foldl
    (fun idx kl =>
      dput idx (kl.2.toOperator, kl.2.toConnector) (kl.2.fromOperator, kl.2.fromConnector))
    []

/-- The input-resolution chain of `parse_to_list`: index lookup at
`(op_idx, in_idx)`, then the producing operator, then its output
connector; any `KeyError` along the chain yields `none`. -/
def resolveInput (wf : WorkflowDoc) (idx : List ((String × String) × (String × String)))
    (opIdx inIdx : String) : Option String :=
  match dget idx (opIdx, inIdx) with
  | none => none
  | some (fromOp, fromConn) =>
    match dget wf.operators fromOp with
    | none => none
    | some srcOp =>
      match dget srcOp.outputs fromConn with
      | none => none
      | some outConn => some (srcOp.name ++ "." ++ outConn.name)

/-- The `params` dictionary of one task: for each parameter, in dictionary
order, `params[param_name] = strconv.convert(param_value)` (raw value kept
on coercion failure). -/
def compileParams (ps : List (String × ParamDoc)) : List (String × PyValue) :=
  ps.foldl (fun acc kp => dput acc kp.2.name (convert kp.2.value)) []

/-- The `inputs` dictionary of one task: for each input connector, in
dictionary order, `inputs[in_name]` is the resolved producer string, or
null when resolution fails. -/
def compileInputs (wf : WorkflowDoc) (idx : List ((String × String) × (String × String)))
    (opIdx : String) (ins : List (String × ConnectorDoc)) : List (String × Option String) :=
  ins.foldl (fun acc kc => dput acc kc.2.name (resolveInput wf idx opIdx kc.1)) []

/-- One emitted task specification. -/
structure TaskSpec where
  name : String
  module : String
  params : List (String × PyValue)
  inputs : List (String × Option String)
deriving DecidableEq, Repr

/-- The per-operator body of `parse_to_list`. -/
def compileTask (wf : WorkflowDoc) (idx : List ((String × String) × (String × String)))
    (opIdx : String) (op : OperatorDoc) : TaskSpec :=
  { name := op.name
    module := op.module
    params := compileParams op.parameters
    inputs := compileInputs wf idx opIdx op.inputs }

/-- `parse_to_list` of `titan/models/workflow.py`: build the link index,
then emit one task per operator in the operator dictionary's insertion
order. -/
def parse_to_list (wf : WorkflowDoc) : List TaskSpec :=
  wf.operators.map (fun kop => compileTask wf (linkIndex wf.links) kop.1 kop.2)

/-! ## RDF Exporter task-node naming (`parse_to_rdf`) -/

/-- The task-node naming of `parse_to_rdf`:
`op_data["definition"]["uri"] + f"-{workflow_id}-{op_idx}"`. -/
def taskNodeURI (uri : String) (workflow_id : String) (op_idx : String) : String :=
  uri ++ "-" ++ workflow_id ++ "-" ++ op_idx

/-! ## The repository's test workflow (tests/test_parse_workflow.py),
used as the concrete input of witnesses. -/

/-- Operator `op_0` of the test workflow. -/
def demoOp0 : OperatorDoc :=
  { name := "DemoTaskOne"
    module := "DemoTaskOneModule"
    inputs := []
    outputs := [("out_0", { name := "DemoTaskOneOutput", uri := "https://www.w3.org/#Data0" })]
    parameters :=
      [("param_0", { name := "param0", value := PyValue.VInt 0 }),
       ("param_1", { name := "param1", value := PyValue.VStr "one" })]
    uri := "https://www.w3.org/#Component0" }

/-- Operator `op_1` of the test workflow. -/
def demoOp1 : OperatorDoc :=
  { name := "DemoTaskTwo"
    module := "DemoTaskTwoModule"
    inputs := [("in_0", { name := "DemoTaskTwoInput", uri := "https://www.w3.org/#Data0" })]
    outputs := []
    parameters := []
    uri := "https://www.w3.org/#Component1" }

/-- The test workflow's two operators with the link removed: a
two-operator, zero-link workflow. -/
def demoWorkflowNoLinks : WorkflowDoc :=
  { operators := [("op_0", demoOp0), ("op_1", demoOp1)]
    links := [] }

/-- The test workflow: two operators, one link `op_0.out_0 → op_1.in_0`. -/
def demoWorkflow : WorkflowDoc :=
  { operators := [("op_0", demoOp0), ("op_1", demoOp1)]
    links :=
      [("0",
        { fromOperator := "op_0", fromConnector := "out_0",
          toOperator := "op_1", toConnector := "in_0" })] }

/-! ## Dictionary lemmas -/

theorem dget_dput_self {κ α : Type} [DecidableEq κ] (l : List (κ × α)) (k : κ) (v : α) :
    dget (dput l k v) k = some v := by
  induction l with
  | nil => simp [dput, dget]
  | cons hd t ih =>
    obtain ⟨k', v'⟩ := hd
    by_cases hk : k' = k
    · simp [dput, hk, dget]
    · simp [dput, hk, dget, ih]

theorem dget_dput_ne {κ α : Type} [DecidableEq κ] (l : List (κ × α)) (k : κ) (v : α)
    (n : κ) (h : n ≠ k) : dget (dput l k v) n = dget l n := by
  have hkn : ¬ k = n := fun hkn => h hkn.symm
  induction l with
  | nil => simp [dput, dget, hkn]
  | cons hd t ih =>
    obtain ⟨k', v'⟩ := hd
    by_cases hk : k' = k
    · subst hk
      simp [dput, dget, hkn]
    · simp [dput, hk, dget, ih]

theorem mem_dput {κ α : Type} [DecidableEq κ] (l : List (κ × α)) (k : κ) (v : α)
    (a : κ × α) (h : a ∈ dput l k v) : a ∈ l ∨ a = (k, v) := by
  induction l with
  | nil => simpa [dput] using h
  | cons hd t ih =>
    obtain ⟨k', v'⟩ := hd
    by_cases hk : k' = k
    · simp only [dput, hk, if_pos rfl] at h
      rcases List.mem_cons.mp h with h1 | h1
      · exact Or.inr h1
      · exact Or.inl (List.mem_cons_of_mem _ h1)
    · simp only [dput, if_neg hk] at h
      rcases List.mem_cons.mp h with h1 | h1
      · exact Or.inl (h1 ▸ List.mem_cons_self _ _)
      · rcases ih h1 with h2 | h2
        · exact Or.inl (List.mem_cons_of_mem _ h2)
        · exact Or.inr h2

theorem mem_dkeys_dput_self {κ α : Type} [DecidableEq κ] (l : List (κ × α)) (k : κ) (v : α) :
    k ∈ dkeys (dput l k v) := by
  induction l with
  | nil => simp [dput, dkeys]
  | cons hd t ih =>
    obtain ⟨k', v'⟩ := hd
    by_cases hk : k' = k
    · simp [dput, hk, dkeys]
    · simpa [dput, hk, dkeys] using Or.inr (by simpa [dkeys] using ih)

theorem dkeys_dput_mono {κ α : Type} [DecidableEq κ] (l : List (κ × α)) (k : κ) (v : α)
    (x : κ) (h : x ∈ dkeys l) : x ∈ dkeys (dput l k v) := by
  induction l with
  | nil => simp [dkeys] at h
  | cons hd t ih =>
    obtain ⟨k', v'⟩ := hd
    rcases (by simpa [dkeys] using h : x = k' ∨ x ∈ dkeys t) with h1 | h1
    · by_cases hk : k' = k
      · simp [dput, hk, dkeys, h1, hk ▸ h1]
      · simp [dput, hk, dkeys, h1]
    · by_cases hk : k' = k
      · simpa [dput, hk, dkeys] using Or.inr (by simpa [dkeys] using h1)
      · simpa [dput, hk, dkeys] using Or.inr (by simpa [dkeys] using ih h1)

theorem length_dput_of_mem {κ α : Type} [DecidableEq κ] (l : List (κ × α)) (k : κ) (v : α)
    (h : k ∈ dkeys l) : (dput l k v).length = l.length := by
  induction l with
  | nil => simp [dkeys] at h
  | cons hd t ih =>
    obtain ⟨k', v'⟩ := hd
    by_cases hk : k' = k
    · simp [dput, hk]
    · rcases (by simpa [dkeys] using h : k = k' ∨ k ∈ dkeys t) with h1 | h1
      · exact absurd h1.symm hk
      · simp [dput, hk, ih h1]

theorem length_dput_of_not_mem {κ α : Type} [DecidableEq κ] (l : List (κ × α)) (k : κ) (v : α)
    (h : k ∉ dkeys l) : (dput l k v).length = l.length + 1 := by
  induction l with
  | nil => simp [dput]
  | cons hd t ih =>
    obtain ⟨k', v'⟩ := hd
    by_cases hk : k' = k
    · exact absurd (by simp [dkeys, hk]) h
    · have ht : k ∉ dkeys t := fun hmem => h (by simpa [dkeys] using Or.inr (by simpa [dkeys] using hmem))
      simp [dput, hk, ih ht]

theorem length_dput_le {κ α : Type} [DecidableEq κ] (l : List (κ × α)) (k : κ) (v : α) :
    (dput l k v).length ≤ l.length + 1 := by
  by_cases h : k ∈ dkeys l
  · rw [length_dput_of_mem l k v h]; omega
  · rw [length_dput_of_not_mem l k v h]

/-! ## Lemmas about dictionary-building folds

`compileParams`, `compileInputs` and `linkIndex` all fold `dput` over a
list of entries, keying entry `e` by `g e` and valuing it `f e`. -/

theorem dget_foldl_dput {ε κ α : Type} [DecidableEq κ] (g : ε → κ) (f : ε → α)
    (es : List ε) (acc : List (κ × α)) (n : κ) :
    dget (es.foldl (fun acc e => dput acc (g e) (f e)) acc) n =
      (((es.filter (fun e => decide (g e = n))).map f).getLast?).or (dget acc n) := by
  induction es using List.reverseRecOn with
  | nil => simp [Option.or]
  | append_singleton xs x ih =>
    rw [List.foldl_append, List.filter_append, List.map_append]
    by_cases hx : g x = n
    · simp only [List.foldl_cons, List.foldl_nil, List.filter_cons, List.filter_nil,
        hx, decide_True]
      rw [List.getLast?_append]
      subst hx
      simp [dget_dput_self, Option.or]
    · simp only [List.foldl_cons, List.foldl_nil, List.filter_cons, List.filter_nil,
        hx, decide_False]
      rw [dget_dput_ne _ _ _ _ (fun hn => hx hn.symm)]
      simpa using ih

theorem filter_key_eq_single {ε κ : Type} [DecidableEq κ] (g : ε → κ)
    (es : List ε) (e : ε) (hmem : e ∈ es) (hnd : (es.map g).Nodup) :
    es.filter (fun x => decide (g x = g e)) = [e] := by
  induction es with
  | nil => simp at hmem
  | cons hd tl ih =>
    rw [List.map_cons, List.nodup_cons] at hnd
    rcases List.mem_cons.mp hmem with h1 | h1
    · subst h1
      have htl : tl.filter (fun x => decide (g x = g e)) = [] := by
        rw [List.filter_eq_nil_iff]
        intro a ha
        simp only [decide_eq_true_eq]
        intro hga
        exact hnd.1 (List.mem_map.mpr ⟨a, ha, hga⟩)
      simp [List.filter_cons, htl]
    · have hne : ¬ g hd = g e := by
        intro hga
        exact hnd.1 (hga ▸ List.mem_map.mpr ⟨e, h1, rfl⟩)
      simp [List.filter_cons, hne, ih h1 hnd.2]

theorem dget_foldl_dput_of_nodup {ε κ α : Type} [DecidableEq κ] (g : ε → κ) (f : ε → α)
    (es : List ε) (e : ε) (hmem : e ∈ es) (hnd : (es.map g).Nodup) :
    dget (es.foldl (fun acc e => dput acc (g e) (f e)) []) (g e) = some (f e) := by
  rw [dget_foldl_dput, filter_key_eq_single g es e hmem hnd]
  simp [dget, Option.or]

theorem length_foldl_dput_le {ε κ α : Type} [DecidableEq κ] (g : ε → κ) (f : ε → α)
    (es : List ε) : ∀ acc : List (κ × α),
    (es.foldl (fun acc e => dput acc (g e) (f e)) acc).length ≤ acc.length + es.length := by
  induction es with
  | nil => intro acc; simp
  | cons e tl ih =>
    intro acc
    calc (tl.foldl (fun acc e => dput acc (g e) (f e)) (dput acc (g e) (f e))).length
        ≤ (dput acc (g e) (f e)).length + tl.length := ih _
      _ ≤ (acc.length + 1) + tl.length := by
          have := length_dput_le acc (g e) (f e); omega
      _ = acc.length + (tl.length + 1) := by omega

theorem length_foldl_dput_lt {ε κ α : Type} [DecidableEq κ] (g : ε → κ) (f : ε → α)
    (es : List ε) : ∀ acc : List (κ × α),
    (¬ (es.map g).Nodup ∨ ∃ e ∈ es, g e ∈ dkeys acc) →
    (es.foldl (fun acc e => dput acc (g e) (f e)) acc).length < acc.length + es.length := by
  induction es with
  | nil =>
    intro acc h
    rcases h with h | ⟨e, he, _⟩
    · exact absurd List.nodup_nil h
    · simp at he
  | cons e tl ih =>
    intro acc h
    by_cases hacc : g e ∈ dkeys acc
    · calc (tl.foldl (fun acc e => dput acc (g e) (f e)) (dput acc (g e) (f e))).length
          ≤ (dput acc (g e) (f e)).length + tl.length := length_foldl_dput_le g f tl _
        _ = acc.length + tl.length := by rw [length_dput_of_mem _ _ _ hacc]
        _ < acc.length + (tl.length + 1) := by omega
    · have hih : ¬ (tl.map g).Nodup ∨ ∃ x ∈ tl, g x ∈ dkeys (dput acc (g e) (f e)) := by
        rcases h with h | ⟨x, hx, hxk⟩
        · rw [List.map_cons, List.nodup_cons] at h
          rcases not_and_or.mp h with h1 | h1
          · rcases List.mem_map.mp (not_not.mp h1) with ⟨x, hx, hgx⟩
            exact Or.inr ⟨x, hx, hgx ▸ mem_dkeys_dput_self acc (g e) (f e)⟩
          · exact Or.inl h1
        · rcases List.mem_cons.mp hx with h1 | h1
          · exact absurd (h1 ▸ hxk) hacc
          · exact Or.inr ⟨x, h1, dkeys_dput_mono acc (g e) (f e) _ hxk⟩
      calc (tl.foldl (fun acc e => dput acc (g e) (f e)) (dput acc (g e) (f e))).length
          < (dput acc (g e) (f e)).length + tl.length := ih _ hih
        _ = acc.length + (tl.length + 1) := by
            rw [length_dput_of_not_mem _ _ _ hacc]; omega

theorem values_foldl_dput {ε κ α : Type} [DecidableEq κ] (g : ε → κ) (f : ε → α)
    (P : α → Prop) (es : List ε) : ∀ acc : List (κ × α),
    (∀ kv ∈ acc, P kv.2) → (∀ e ∈ es, P (f e)) →
    ∀ kv ∈ es.foldl (fun acc e => dput acc (g e) (f e)) acc, P kv.2 := by
  induction es with
  | nil => intro acc hacc _ kv hkv; exact hacc kv hkv
  | cons e tl ih =>
    intro acc hacc hes kv hkv
    refine ih _ ?_ (fun x hx => hes x (List.mem_cons_of_mem _ hx)) kv hkv
    intro a ha
    rcases mem_dput acc (g e) (f e) a ha with h1 | h1
    · exact hacc a h1
    · rw [h1]
      exact hes e (List.mem_cons_self _ _)

/-! ## Status Aggregator lemmas -/

theorem checkAll_singleton (v : String) (ss : List String) :
    checkAll [v] ss = true ↔ ∀ s ∈ ss, s = v := by
  simp [checkAll, memberFlags, List.all_map, Function.comp, List.all_eq_true,
    List.contains_eq_any_beq]

theorem checkAny_singleton (v : String) (ss : List String) :
    checkAny [v] ss = true ↔ ∃ s ∈ ss, s = v := by
  simp [checkAny, memberFlags, List.any_map, Function.comp, List.any_eq_true,
    List.contains_eq_any_beq]

theorem readStatuses_eq_none (ts : List TaskReport)
    (h : ∃ t ∈ ts, readTaskStatus t = none) : readStatuses ts = none := by
  induction ts with
  | nil => simp at h
  | cons t tl ih =>
    rcases h with ⟨x, hx, hbad⟩
    rcases List.mem_cons.mp hx with h1 | h1
    · cases hr : readStatuses tl <;> simp [readStatuses, h1 ▸ hbad, hr]
    · cases hs : readTaskStatus t <;> simp [readStatuses, ih ⟨x, h1, hbad⟩, hs]

/-! ## Claims about the Status Aggregator -/

/-- C1: the v3 status aggregation derives the workflow state by exactly the
claimed precedence: revoked flag, then all-DONE, then any-FAILED, then
all-PENDING, then any-PENDING with no FAILED, then any-RUNNING with no
FAILED, else UNKNOWN. -/
theorem c1_v3_status_precedence (tasksStatuses : List String) (isRevoked : Bool) :
    statusV3 tasksStatuses isRevoked =
      if isRevoked then State.STATUS_REVOKED
      else if ∀ s ∈ tasksStatuses, s = "DONE" then State.STATUS_DONE
      else if ∃ s ∈ tasksStatuses, s = "FAILED" then State.STATUS_FAILED
      else if ∀ s ∈ tasksStatuses, s = "PENDING" then State.STATUS_PENDING
      else if (∃ s ∈ tasksStatuses, s = "PENDING") ∧ ¬ ∃ s ∈ tasksStatuses, s = "FAILED" then
        State.STATUS_PENDING
      else if (∃ s ∈ tasksStatuses, s = "RUNNING") ∧ ¬ ∃ s ∈ tasksStatuses, s = "FAILED" then
        State.STATUS_RUNNING
      else State.STATUS_UNKNOWN := by
  have hD := checkAll_singleton "DONE" tasksStatuses
  have hP := checkAll_singleton "PENDING" tasksStatuses
  have hf := checkAny_singleton "FAILED" tasksStatuses
  have hp := checkAny_singleton "PENDING" tasksStatuses
  have hr := checkAny_singleton "RUNNING" tasksStatuses
  simp only [statusV3, Bool.and_eq_true, Bool.not_eq_true', ← Bool.not_eq_true,
    hD, hP, hf, hp, hr]

/-- C2 counterexample: the v2 status route is also a status-aggregation
call site, and it derives the workflow state without consulting the
report's `is_revoked` flag: a report with one DONE task and
`is_revoked = true` is aggregated to DONE, not REVOKED. -/
theorem c2_counterexample :
    v2WorkflowStatus { tasks := [{ status := some "DONE" }], is_revoked := true }
      = some State.STATUS_DONE ∧
    some State.STATUS_DONE ≠ some State.STATUS_REVOKED := by
  decide

/-- C2 amended: asserting `is_revoked = true` yields REVOKED regardless of
task states at the two v3 call sites; the v2 call site ignores the flag
entirely (its result does not depend on it). -/
theorem c2_amended :
    (∀ tasksStatuses : List String, statusV3 tasksStatuses true = State.STATUS_REVOKED) ∧
    (∀ (ts : List TaskReport) (b₁ b₂ : Bool),
      v2WorkflowStatus { tasks := ts, is_revoked := b₁ }
        = v2WorkflowStatus { tasks := ts, is_revoked := b₂ }) := by
  exact ⟨fun _ => rfl, fun _ _ _ => rfl⟩

/-- C3 counterexample: on an empty task list with the revoked flag unset,
neither aggregation variant derives UNKNOWN. -/
theorem c3_counterexample :
    statusV3 [] false ≠ State.STATUS_UNKNOWN ∧ statusV2 [] ≠ State.STATUS_UNKNOWN := by
  decide

/-- C3 amended: on an empty task list with the revoked flag unset, both
aggregation variants derive DONE, because the all-tasks-DONE check is
vacuously true on an empty list. -/
theorem c3_empty_derives_done :
    statusV3 [] false = State.STATUS_DONE ∧ statusV2 [] = State.STATUS_DONE := by
  decide

/-- C4 counterexample: on the task-state list `["PENDING", "RUNNING"]`
with the revoked flag unset, the v3 aggregation does not derive RUNNING. -/
theorem c4_counterexample :
    statusV3 ["PENDING", "RUNNING"] false ≠ State.STATUS_RUNNING := by
  decide

/-- C4 amended: on `["PENDING", "RUNNING"]` the v2 aggregation derives
RUNNING, but the v3 aggregation derives PENDING, because its any-PENDING
rule fires before its any-RUNNING rule. -/
theorem c4_pending_running :
    statusV2 ["PENDING", "RUNNING"] = State.STATUS_RUNNING ∧
    statusV3 ["PENDING", "RUNNING"] false = State.STATUS_PENDING := by
  decide

/-- C5 counterexample: a malformed task entry (missing status string) is
not skipped: the v3 route's task-reading loop raises, the surrounding
handler catches, and the whole workflow keeps the default UNKNOWN state —
whereas aggregating the remaining well-formed entry would give DONE. -/
theorem c5_counterexample :
    v3WorkflowStatus
        { tasks := [{ status := none }, { status := some "DONE" }], is_revoked := false }
      = State.STATUS_UNKNOWN ∧
    statusV3 ["DONE"] false = State.STATUS_DONE ∧
    State.STATUS_UNKNOWN ≠ State.STATUS_DONE := by
  decide

/-- C5 amended: a malformed task entry aborts the whole aggregation rather
than being skipped: whenever any entry of the report fails to read, the v3
route falls back to the default UNKNOWN workflow state. -/
theorem c5_malformed_aborts_aggregation (r : StatusReport)
    (h : ∃ t ∈ r.tasks, readTaskStatus t = none) :
    v3WorkflowStatus r = State.STATUS_UNKNOWN := by
  unfold v3WorkflowStatus
  rw [readStatuses_eq_none r.tasks h]

/-- Witness for the amended C5 theorem at a concrete report. -/
theorem c5_witness :
    v3WorkflowStatus
        { tasks := [{ status := none }, { status := some "DONE" }], is_revoked := false }
      = State.STATUS_UNKNOWN :=
  c5_malformed_aborts_aggregation
    { tasks := [{ status := none }, { status := some "DONE" }], is_revoked := false }
    ⟨{ status := none }, by simp, rfl⟩

/-! ## Claims about the Task Compiler -/

/-- C6: when the link index has an entry for `(opIdx, inIdx)` and both the
referenced source operator and its referenced output connector exist, the
compiled task records that input as
`"<producingOperatorName>.<producingOutputConnectorName>"`, built from
display names, under the input connector's display name (connector display
names being unique within an operator, per the data-model invariant). -/
theorem c6_input_resolution (wf : WorkflowDoc) (opIdx : String) (op : OperatorDoc)
    (inIdx : String) (c : ConnectorDoc) (fromOp fromConn : String)
    (srcOp : OperatorDoc) (outConn : ConnectorDoc)
    (hop : (opIdx, op) ∈ wf.operators)
    (hin : (inIdx, c) ∈ op.inputs)
    (hnd : (op.inputs.map (fun kc => kc.2.name)).Nodup)
    (hlink : dget (linkIndex wf.links) (opIdx, inIdx) = some (fromOp, fromConn))
    (hsrc : dget wf.operators fromOp = some srcOp)
    (hout : dget srcOp.outputs fromConn = some outConn) :
    compileTask wf (linkIndex wf.links) opIdx op ∈ parse_to_list wf ∧
    dget (compileTask wf (linkIndex wf.links) opIdx op).inputs c.name
      = some (some (srcOp.name ++ "." ++ outConn.name)) := by
  constructor
  · exact List.mem_map.mpr ⟨(opIdx, op), hop, rfl⟩
  · have hres : resolveInput wf (linkIndex wf.links) opIdx inIdx
        = some (srcOp.name ++ "." ++ outConn.name) := by
      simp only [resolveInput, hlink, hsrc, hout]
    have h := dget_foldl_dput_of_nodup (fun kc : String × ConnectorDoc => kc.2.name)
      (fun kc : String × ConnectorDoc => resolveInput wf (linkIndex wf.links) opIdx kc.1)
      op.inputs (inIdx, c) hin hnd
    calc dget (compileTask wf (linkIndex wf.links) opIdx op).inputs c.name
        = some (resolveInput wf (linkIndex wf.links) opIdx inIdx) := h
      _ = some (some (srcOp.name ++ "." ++ outConn.name)) := by rw [hres]

/-- Witness for C6 at the repository's own test workflow: the input of
`op_1` resolves to `"DemoTaskOne.DemoTaskOneOutput"`. -/
theorem c6_witness :
    compileTask demoWorkflow (linkIndex demoWorkflow.links) "op_1" demoOp1
      ∈ parse_to_list demoWorkflow ∧
    dget (compileTask demoWorkflow (linkIndex demoWorkflow.links) "op_1" demoOp1).inputs
        "DemoTaskTwoInput"
      = some (some "DemoTaskOne.DemoTaskOneOutput") :=
  c6_input_resolution demoWorkflow "op_1" demoOp1 "in_0"
    { name := "DemoTaskTwoInput", uri := "https://www.w3.org/#Data0" } "op_0" "out_0"
    demoOp0 { name := "DemoTaskOneOutput", uri := "https://www.w3.org/#Data0" }
    (by decide) (by decide) (by decide) rfl rfl rfl

/-- C7: compilation never fails on an unresolvable input: one task is
emitted per operator in every workflow; an input connector whose resolution
chain fails is recorded as null; and with zero links every input of every
emitted task is null. -/
theorem c7_unresolved_inputs_are_null (wf : WorkflowDoc) :
    (parse_to_list wf).length = wf.operators.length ∧
    (∀ (opIdx : String) (op : OperatorDoc) (inIdx : String) (c : ConnectorDoc),
      (opIdx, op) ∈ wf.operators → (inIdx, c) ∈ op.inputs →
      (op.inputs.map (fun kc => kc.2.name)).Nodup →
      resolveInput wf (linkIndex wf.links) opIdx inIdx = none →
      dget (compileTask wf (linkIndex wf.links) opIdx op).inputs c.name = some none) ∧
    (wf.links = [] → ∀ t ∈ parse_to_list wf, ∀ kv ∈ t.inputs, kv.2 = none) := by
  refine ⟨List.length_map _ _, ?_, ?_⟩
  · intro opIdx op inIdx c _ hin hnd hfail
    have h := dget_foldl_dput_of_nodup (fun kc : String × ConnectorDoc => kc.2.name)
      (fun kc : String × ConnectorDoc => resolveInput wf (linkIndex wf.links) opIdx kc.1)
      op.inputs (inIdx, c) hin hnd
    calc dget (compileTask wf (linkIndex wf.links) opIdx op).inputs c.name
        = some (resolveInput wf (linkIndex wf.links) opIdx inIdx) := h
      _ = some none := by rw [hfail]
  · intro hlinks t ht kv hkv
    rcases List.mem_map.mp ht with ⟨⟨opIdx, op⟩, _, rfl⟩
    have hidx : linkIndex wf.links = [] := by rw [hlinks]; rfl
    refine values_foldl_dput (fun kc : String × ConnectorDoc => kc.2.name)
      (fun kc : String × ConnectorDoc => resolveInput wf (linkIndex wf.links) opIdx kc.1)
      (fun v => v = none) op.inputs [] (by simp) ?_ kv hkv
    intro e _
    rw [hidx]
    rfl

/-- Witness for C7 at a two-operator, zero-link workflow: two tasks are
emitted, and the (unlinked) input of `op_1` is recorded as null. -/
theorem c7_witness :
    (parse_to_list demoWorkflowNoLinks).length = 2 ∧
    dget (compileTask demoWorkflowNoLinks (linkIndex demoWorkflowNoLinks.links)
        "op_1" demoOp1).inputs "DemoTaskTwoInput" = some none := by
  have h := c7_unresolved_inputs_are_null demoWorkflowNoLinks
  refine ⟨h.1.trans rfl, ?_⟩
  exact h.2.1 "op_1" demoOp1 "in_0"
    { name := "DemoTaskTwoInput", uri := "https://www.w3.org/#Data0" }
    (by decide) (by decide) (by decide) rfl

/-- C8: parameter coercion through the compiled params mapping: the string
`"3.14"` is recorded as the (exact) floating-point number 3.14, and the
uncoercible string `"one"` passes through unchanged. -/
theorem c8_parameter_coercion :
    compileParams
        [("param_0", { name := "p0", value := PyValue.VStr "3.14" }),
         ("param_1", { name := "p1", value := PyValue.VStr "one" })]
      = [("p0", PyValue.VFloat (157 / 50)), ("p1", PyValue.VStr "one")] ∧
    convert (PyValue.VStr "3.14") = PyValue.VFloat (157 / 50) ∧
    convert (PyValue.VStr "one") = PyValue.VStr "one" := by
  have h1 : convert (PyValue.VStr "3.14") = PyValue.VFloat (157 / 50) := by
    have hr : ((digitsToNat ['3'] : Rat) +
        (digitsToNat ['1', '4'] : Rat) / ((10 : Rat) ^ (['1', '4'].length))) = 157 / 50 := by
      norm_num [show digitsToNat ['3'] = 3 from rfl, show digitsToNat ['1', '4'] = 14 from rfl]
    calc convert (PyValue.VStr "3.14")
        = PyValue.VFloat ((digitsToNat ['3'] : Rat) +
            (digitsToNat ['1', '4'] : Rat) / ((10 : Rat) ^ (['1', '4'].length))) := rfl
      _ = PyValue.VFloat (157 / 50) := by rw [hr]
  have h2 : convert (PyValue.VStr "one") = PyValue.VStr "one" := rfl
  refine ⟨?_, h1, h2⟩
  calc compileParams
        [("param_0", { name := "p0", value := PyValue.VStr "3.14" }),
         ("param_1", { name := "p1", value := PyValue.VStr "one" })]
      = [("p0", convert (PyValue.VStr "3.14")), ("p1", convert (PyValue.VStr "one"))] := rfl
    _ = [("p0", PyValue.VFloat (157 / 50)), ("p1", PyValue.VStr "one")] := by rw [h1, h2]

/-! ## Claims about the RDF Exporter's task-node naming -/

/-- C9 counterexample: the naming scheme is not injective over
`(workflow id, operator key)` pairs: with one shared definition URI `"u"`,
the distinct pairs `("a-b", "c")` and `("a", "b-c")` collide. -/
theorem c9_counterexample :
    taskNodeURI "u" "a-b" "c" = taskNodeURI "u" "a" "b-c" ∧
    (("a-b", "c") : String × String) ≠ ("a", "b-c") := by
  decide

theorem append_cons_dash_left_inj : ∀ u₁ u₂ v₁ v₂ : List Char, '-' ∉ u₁ → '-' ∉ u₂ →
    u₁ ++ '-' :: v₁ = u₂ ++ '-' :: v₂ → u₁ = u₂ ∧ v₁ = v₂
  | [], [], v₁, v₂, _, _, h => by simpa using h
  | [], d :: s, v₁, v₂, _, h₂, h => by
    rw [List.nil_append, List.cons_append, List.cons.injEq] at h
    obtain ⟨hc, -⟩ := h
    subst hc
    exact absurd (List.mem_cons_self _ _) h₂
  | c :: t, [], v₁, v₂, h₁, _, h => by
    rw [List.cons_append, List.nil_append, List.cons.injEq] at h
    obtain ⟨hc, -⟩ := h
    subst hc
    exact absurd (List.mem_cons_self _ _) h₁
  | c :: t, d :: s, v₁, v₂, h₁, h₂, h => by
    rw [List.cons_append, List.cons_append, List.cons.injEq] at h
    obtain ⟨hc, hrest⟩ := h
    subst hc
    have ht := append_cons_dash_left_inj t s v₁ v₂
      (fun hm => h₁ (List.mem_cons_of_mem _ hm))
      (fun hm => h₂ (List.mem_cons_of_mem _ hm)) hrest
    exact ⟨by rw [ht.1], ht.2⟩

theorem append_cons_dash_right_inj (s₁ t₁ s₂ t₂ : List Char)
    (h₁ : '-' ∉ t₁) (h₂ : '-' ∉ t₂)
    (h : s₁ ++ '-' :: t₁ = s₂ ++ '-' :: t₂) : s₁ = s₂ ∧ t₁ = t₂ := by
  have hr := congrArg List.reverse h
  rw [List.reverse_append, List.reverse_append, List.reverse_cons, List.reverse_cons,
    List.append_assoc, List.append_assoc, List.singleton_append, List.singleton_append] at hr
  have hli := append_cons_dash_left_inj _ _ _ _
    (by simpa [List.mem_reverse] using h₁) (by simpa [List.mem_reverse] using h₂) hr
  exact ⟨List.reverse_injective hli.2, List.reverse_injective hli.1⟩

/-- C9 amended: the task-node naming is injective over
`(definition URI, workflow id, operator key)` triples — and in particular
over `(workflow id, operator key)` pairs sharing a definition URI —
provided workflow ids and operator keys contain no hyphen. -/
theorem c9_injective_without_hyphens (u₁ w₁ k₁ u₂ w₂ k₂ : String)
    (hw₁ : '-' ∉ w₁.data) (hw₂ : '-' ∉ w₂.data)
    (hk₁ : '-' ∉ k₁.data) (hk₂ : '-' ∉ k₂.data)
    (h : taskNodeURI u₁ w₁ k₁ = taskNodeURI u₂ w₂ k₂) :
    u₁ = u₂ ∧ w₁ = w₂ ∧ k₁ = k₂ := by
  have hd := congrArg String.data h
  have hdash : ("-" : String).data = ['-'] := rfl
  simp only [taskNodeURI, String.data_append, hdash] at hd
  have hd' : (u₁.data ++ '-' :: w₁.data) ++ '-' :: k₁.data
      = (u₂.data ++ '-' :: w₂.data) ++ '-' :: k₂.data := by
    simpa [List.append_assoc] using hd
  obtain ⟨h12, hk⟩ := append_cons_dash_right_inj _ _ _ _ hk₁ hk₂ hd'
  obtain ⟨hu, hw⟩ := append_cons_dash_right_inj _ _ _ _ hw₁ hw₂ h12
  exact ⟨String.ext hu, String.ext hw, String.ext hk⟩

/-- Witness for the amended C9 theorem at concrete hyphen-free workflow id
and operator key (the definition URI may contain hyphens). -/
theorem c9_witness :
    ("https://w.org/#a-class" : String) = "https://w.org/#a-class" ∧
    ("wf1" : String) = "wf1" ∧ ("op0" : String) = "op0" :=
  c9_injective_without_hyphens "https://w.org/#a-class" "wf1" "op0"
    "https://w.org/#a-class" "wf1" "op0"
    (by decide) (by decide) (by decide) (by decide) rfl

/-- C10: both emitted mappings are keyed by display name: a lookup returns
the value of the last declared parameter/input connector bearing that
display name, and under duplicated display names the mapping is strictly
shorter than the operator's declaration list. -/
theorem c10_display_name_keying (ps : List (String × ParamDoc))
    (wf : WorkflowDoc) (idx : List ((String × String) × (String × String)))
    (opIdx : String) (ins : List (String × ConnectorDoc))
    (hp : ¬ (ps.map (fun kp => kp.2.name)).Nodup)
    (hi : ¬ (ins.map (fun kc => kc.2.name)).Nodup) :
    (compileParams ps).length < ps.length ∧
    (compileInputs wf idx opIdx ins).length < ins.length ∧
    (∀ n : String, dget (compileParams ps) n =
      ((ps.filter (fun kp => decide (kp.2.name = n))).map
        (fun kp => convert kp.2.value)).getLast?) ∧
    (∀ n : String, dget (compileInputs wf idx opIdx ins) n =
      ((ins.filter (fun kc => decide (kc.2.name = n))).map
        (fun kc => resolveInput wf idx opIdx kc.1)).getLast?) := by
  refine ⟨?_, ?_, ?_, ?_⟩
  · simpa using length_foldl_dput_lt (fun kp : String × ParamDoc => kp.2.name)
      (fun kp : String × ParamDoc => convert kp.2.value) ps [] (Or.inl hp)
  · simpa using length_foldl_dput_lt (fun kc : String × ConnectorDoc => kc.2.name)
      (fun kc : String × ConnectorDoc => resolveInput wf idx opIdx kc.1) ins [] (Or.inl hi)
  · intro n
    have h := dget_foldl_dput (fun kp : String × ParamDoc => kp.2.name)
      (fun kp : String × ParamDoc => convert kp.2.value) ps [] n
    rw [show dget ([] : List (String × PyValue)) n = none from rfl, Option.or_none] at h
    exact h
  · intro n
    have h := dget_foldl_dput (fun kc : String × ConnectorDoc => kc.2.name)
      (fun kc : String × ConnectorDoc => resolveInput wf idx opIdx kc.1) ins [] n
    rw [show dget ([] : List (String × Option String)) n = none from rfl,
      Option.or_none] at h
    exact h

/-- Witness for C10 at an operator declaring two parameters and two input
connectors with clashing display names: both compiled mappings are shorter
than the declarations. -/
theorem c10_witness :
    (compileParams
      [("param_0", { name := "x", value := PyValue.VStr "1" }),
       ("param_1", { name := "x", value := PyValue.VStr "2" })]).length < 2 ∧
    (compileInputs demoWorkflow [] "op"
      [("in_0", { name := "i", uri := "u" }),
       ("in_1", { name := "i", uri := "u" })]).length < 2 := by
  have h := c10_display_name_keying
    [("param_0", { name := "x", value := PyValue.VStr "1" }),
     ("param_1", { name := "x", value := PyValue.VStr "2" })]
    demoWorkflow [] "op"
    [("in_0", { name := "i", uri := "u" }), ("in_1", { name := "i", uri := "u" })]
    (by decide) (by decide)
  exact ⟨h.1, h.2.1⟩

end Titan
